import Mathlib

/-!
Verification of the task-manager module `Codigo_inicial/Gestor_tareas.py`.

The Python module is embedded shallowly:

* `Priority` and `TaskStatus` mirror the two `Enum` classes.
* Python `datetime.datetime` values are modelled as integers on a linear
  timeline: a wall-clock tuple `(year, month, day, hour, minute)` is encoded
  by the strictly monotone injection `dtEncode`, so the `<`/`≤` comparisons
  performed by the Python code coincide with integer comparisons.
* `datetime.strptime(s, "%Y-%m-%d %H:%M")` is modelled by `strptime`, an
  executable parser of that format returning `none` where Python raises
  `ValueError`.
* Python `dict[int, Task]` state is modelled as an insertion-ordered
  association list (`dictInsert` replaces in place or appends, as CPython
  dicts do), because iteration order of `dict.values()` is observable
  through `get_all_tasks`.
* Methods that mutate `self` are modelled as functions returning the result
  together with the new manager state.  Python mutates `Task` objects held
  in the dict in place; the model therefore writes the partially updated
  task back into the mapping at every early `return`, which is exactly the
  aliasing behaviour of the source.
-/

namespace Gestor

/-- The `Priority` enum of `Gestor_tareas.py`: `BAJA = 1`, `MEDIA = 2`,
`ALTA = 3` (Spanish for LOW / MEDIUM / HIGH). -/
inductive Priority where
  | BAJA
  | MEDIA
  | ALTA
deriving DecidableEq

/-- `Priority.value`: the numeric value of each enum member. -/
def Priority.value : Priority → Nat
  | .BAJA => 1
  | .MEDIA => 2
  | .ALTA => 3

/-- `Priority.name`: the symbolic name of each enum member. -/
def Priority.name : Priority → String
  | .BAJA => "BAJA"
  | .MEDIA => "MEDIA"
  | .ALTA => "ALTA"

/-- `Priority[s]`: name lookup in the enum, `none` where Python raises
`KeyError`. -/
def Priority.fromName (s : String) : Option Priority :=
  if s = "BAJA" then some .BAJA
  else if s = "MEDIA" then some .MEDIA
  else if s = "ALTA" then some .ALTA
  else none

/-- The `TaskStatus` enum: `PENDIENTE = 1`, `COMPLETADA = 2`
(PENDING / COMPLETED). -/
inductive TaskStatus where
  | PENDIENTE
  | COMPLETADA
deriving DecidableEq

/-- `TaskStatus.name`. -/
def TaskStatus.name : TaskStatus → String
  | .PENDIENTE => "PENDIENTE"
  | .COMPLETADA => "COMPLETADA"

/-- `TaskStatus[s]` name lookup. -/
def TaskStatus.fromName (s : String) : Option TaskStatus :=
  if s = "PENDIENTE" then some .PENDIENTE
  else if s = "COMPLETADA" then some .COMPLETADA
  else none

/-! ### The datetime model -/

/-- Strictly monotone encoding of a wall-clock tuple onto the integer
timeline: lexicographic comparison of `(y, mo, d, h, mi)` (which is how
Python compares `datetime` values) agrees with `≤` on the encodings, since
`mo < 13`, `d < 32`, `h < 24`, `mi < 60` for every tuple accepted by
`strptime`. -/
def dtEncode (y mo d h mi : Nat) : Int :=
  (((((y * 13 + mo) * 32 + d) * 24 + h) * 60 + mi : Nat) : Int)

/-- Leap-year rule used by the Gregorian calendar (and `datetime`). -/
def isLeapYear (y : Nat) : Bool :=
  y % 4 = 0 && (y % 100 ≠ 0 || y % 400 = 0)

/-- Number of days of month `mo` of year `y`. -/
def daysInMonth (y mo : Nat) : Nat :=
  if mo = 2 then (if isLeapYear y then 29 else 28)
  else if mo = 4 ∨ mo = 6 ∨ mo = 9 ∨ mo = 11 then 30
  else 31

/-- Value of a big-endian digit string. -/
def digitsVal (cs : List Char) : Nat :=
  cs.foldl (fun acc c => acc * 10 + (c.toNat - 48)) 0

/-- Parse a non-empty run of decimal digits, `none` otherwise. -/
def parseNatDigits (cs : List Char) : Option Nat :=
  if cs ≠ [] ∧ cs.all Char.isDigit then some (digitsVal cs) else none

/-- Split a character list at every occurrence of `sep` (like
`str.split(sep)`: `n` separators yield `n + 1` groups). -/
def splitCharList (sep : Char) : List Char → List (List Char)
  | [] => [[]]
  | c :: cs =>
    let r := splitCharList sep cs
    if c = sep then [] :: r
    else
      match r with
      | g :: gs => (c :: g) :: gs
      | [] => [[c]]

/-- Model of `datetime.datetime.strptime(s, "%Y-%m-%d %H:%M")`: parses
`YYYY-MM-DD HH:MM` (digit runs separated by `-`, a space and `:`), validates
the calendar ranges that `datetime` enforces (year 1–9999, month 1–12, day
bounded by the month length, hour ≤ 23, minute ≤ 59) and returns the
timeline encoding, or `none` where Python raises `ValueError`. -/
def strptime (s : String) : Option Int :=
  match splitCharList ' ' s.toList with
  | [ds, ts] =>
    match splitCharList '-' ds, splitCharList ':' ts with
    | [ys, mos, dys], [hs, mis] =>
      match parseNatDigits ys, parseNatDigits mos, parseNatDigits dys,
          parseNatDigits hs, parseNatDigits mis with
      | some y, some mo, some d, some h, some mi =>
        if 1 ≤ y ∧ y ≤ 9999 ∧ 1 ≤ mo ∧ mo ≤ 12 ∧ 1 ≤ d ∧ d ≤ daysInMonth y mo
            ∧ h ≤ 23 ∧ mi ≤ 59 then
          some (dtEncode y mo d h mi)
        else none
      | _, _, _, _, _ => none
    | _, _ => none
  | _ => none

/-! ### Insertion-ordered dictionaries (CPython `dict` semantics) -/

/-- `d[k] = v`: replace in place if the key is present (keeping its
position), otherwise append. -/
def dictInsert {α β : Type} [DecidableEq α] : List (α × β) → α → β → List (α × β)
  | [], k, v => [(k, v)]
  | (k', v') :: rest, k, v =>
    if k' = k then (k, v) :: rest else (k', v') :: dictInsert rest k v

/-- `d.get(k)` / `d[k]` lookup. -/
def dictGet {α β : Type} [DecidableEq α] : List (α × β) → α → Option β
  | [], _ => none
  | (k', v) :: rest, k => if k' = k then some v else dictGet rest k

/-- `del d[k]`. -/
def dictErase {α β : Type} [DecidableEq α] (l : List (α × β)) (k : α) : List (α × β) :=
  l.filter (fun p => decide (p.1 ≠ k))

/-! ### The `Task` data model -/

/-- The `Task` class: one record per task.  `id` is `Option` because the
constructor sets it to `None` until the manager assigns it. -/
structure Task where
  id : Option Int
  title : String
  description : String
  due_date : Int
  priority : Priority
  status : TaskStatus
  created_at : Int
deriving DecidableEq

/-! ### Decimal rendering of integers

`str(i)` for `int` keys and, through the timeline encoding, the
`isoformat`/`fromisoformat` pair are modelled by an injective decimal
rendering of integers and its partial inverse. -/

/-- The character of a decimal digit. -/
def digitChar (d : Nat) : Char :=
  if d = 0 then '0' else if d = 1 then '1' else if d = 2 then '2'
  else if d = 3 then '3' else if d = 4 then '4' else if d = 5 then '5'
  else if d = 6 then '6' else if d = 7 then '7' else if d = 8 then '8'
  else '9'

/-- Little-endian base-10 digits, fuel-based so that it evaluates by
kernel reduction; `natDigits_eq_digits` identifies it with `Nat.digits`. -/
def natDigitsAux : Nat → Nat → List Nat
  | 0, _ => []
  | fuel + 1, n => if n = 0 then [] else n % 10 :: natDigitsAux fuel (n / 10)

/-- Little-endian base-10 digits of `n` (`n` itself is enough fuel). -/
def natDigits (n : Nat) : List Nat := natDigitsAux n n

/-- Decimal rendering of a natural number. -/
def natRepr (n : Nat) : String :=
  if n = 0 then "0" else String.mk (((natDigits n).reverse).map digitChar)

/-- `str(i)` for a Python `int`. -/
def intRepr (i : Int) : String :=
  if i < 0 then "-" ++ natRepr i.natAbs else natRepr i.toNat

/-- Partial inverse of `intRepr` at the character level: an optional minus
sign followed by decimal digits, `none` on any other input. -/
def parseIntDecList : List Char → Option Int
  | [] => none
  | c :: cs =>
    if c = '-' then (parseNatDigits cs).map (fun n => -(n : Int))
    else (parseNatDigits (c :: cs)).map (fun n => (n : Int))

/-- Partial inverse of `intRepr`. -/
def parseIntDec (s : String) : Option Int :=
  parseIntDecList s.toList

/-- Python `str.upper()` (ASCII case mapping, which covers every name the
enums define), written char-by-char so it evaluates by reduction. -/
def pyToUpper (s : String) : String :=
  String.mk (s.toList.map Char.toUpper)

/-- Python `str.lower()` (ASCII case mapping). -/
def pyToLower (s : String) : String :=
  String.mk (s.toList.map Char.toLower)

/-! ### The `TaskManager` in-memory state and operations -/

/-- In-memory state of a `TaskManager`: the task dict and the id counter.
(The backing JSON file is modelled separately by `save_tasks` /
`load_tasks`; the synchronous file writes performed by the mutating methods
do not affect the in-memory state.) -/
structure TaskManager where
  tasks : List (Int × Task)
  next_id : Int
deriving DecidableEq

/-- `TaskManager.MAX_TITLE_LENGTH`. -/
def MAX_TITLE_LENGTH : Nat := 50

/-- The state `TaskManager.__init__` produces when no data file exists
(`load_tasks` on a missing file): empty dict, counter 1. -/
def initialManager : TaskManager := { tasks := [], next_id := 1 }

/-- `TaskManager.get_task`. -/
def get_task (m : TaskManager) (task_id : Int) : Option Task :=
  dictGet m.tasks task_id

/-- `TaskManager.add_task(title, description, due_date_str, priority_str)`.
`now` is the value of `datetime.datetime.now()` during the call (used for
`created_at`; the method performs no comparison against it). Returns the
Python `Union[str, Task]` result and the new state. -/
def add_task (m : TaskManager) (now : Int)
    (title description due_date_str priority_str : String) :
    Except String Task × TaskManager :=
  if title = "" ∨ title.length > MAX_TITLE_LENGTH then
    (.error "Error: El título debe tener entre 1 y 50 caracteres.", m)
  else
    match strptime due_date_str with
    | none => (.error "Error: Formato de fecha incorrecto. Use YYYY-MM-DD HH:MM", m)
    | some due_date =>
      match Priority.fromName (pyToUpper priority_str) with
      | none => (.error "Error: Prioridad inválida. Use BAJA, MEDIA o ALTA.", m)
      | some priority =>
        let task : Task :=
          { id := some m.next_id, title := title, description := description,
            due_date := due_date, priority := priority,
            status := .PENDIENTE, created_at := now }
        (.ok task,
         { tasks := dictInsert m.tasks m.next_id task, next_id := m.next_id + 1 })

/-- Write the (in Python: aliased, mutated-in-place) task object back into
the dict; its key is already present whenever this is reached. -/
def writeBack (m : TaskManager) (task_id : Int) (task : Task) : TaskManager :=
  { m with tasks := dictInsert m.tasks task_id task }

/-- Tail of `update_task` from the `priority_str` block onwards. -/
def updateFinish (m : TaskManager) (task_id : Int) (task : Task)
    (priority_str : Option String) : Except String Task × TaskManager :=
  match priority_str with
  | some p =>
    match Priority.fromName (pyToUpper p) with
    | none => (.error "Error: Prioridad inválida. Use BAJA, MEDIA o ALTA.", writeBack m task_id task)
    | some prio =>
      let task := { task with priority := prio }
      (.ok task, writeBack m task_id task)
  | none => (.ok task, writeBack m task_id task)

/-- Tail of `update_task` from the first `due_date_str` block onwards.  The
source parses the same string twice: a first block (no range check) already
assigns `task.due_date`, then a duplicated block re-parses, rejects a date
before `now`, and assigns again — so the past-date error is returned *after*
the task object has been mutated. -/
def updateDue (m : TaskManager) (now : Int) (task_id : Int) (task : Task)
    (due_date_str priority_str : Option String) : Except String Task × TaskManager :=
  match due_date_str with
  | some s =>
    match strptime s with
    | none => (.error "Error: Formato de fecha incorrecto. Use YYYY-MM-DD HH:MM", writeBack m task_id task)
    | some d =>
      let task := { task with due_date := d }
      match strptime s with
      | none => (.error "Error: Formato de fecha incorrecto. Use YYYY-MM-DD HH:MM", writeBack m task_id task)
      | some d2 =>
        if d2 < now then
          (.error "Error: La fecha de vencimiento no puede ser en el pasado", writeBack m task_id task)
        else
          let task := { task with due_date := d2 }
          updateFinish m task_id task priority_str
  | none => updateFinish m task_id task priority_str

/-- `TaskManager.update_task(task_id, title, description, due_date_str,
priority_str)` with `None` arguments as `Option.none`.  Field blocks run in
source order (title, description, the two due-date blocks, priority); each
early error return leaves the mutations already applied by earlier blocks
visible in the mapping, exactly as the in-place mutation of the source
does. -/
def update_task (m : TaskManager) (now : Int) (task_id : Int)
    (title description due_date_str priority_str : Option String) :
    Except String Task × TaskManager :=
  match dictGet m.tasks task_id with
  | none => (.error ("Error: No se encontró una tarea con ID " ++ intRepr task_id), m)
  | some task =>
    match title with
    | some t =>
      if t = "" ∨ t.length > MAX_TITLE_LENGTH then
        (.error "Error: El título debe tener entre 1 y 50 caracteres.", m)
      else
        let task := { task with title := t }
        let task := match description with
          | some dsc => { task with description := dsc }
          | none => task
        updateDue m now task_id task due_date_str priority_str
    | none =>
      let task := match description with
        | some dsc => { task with description := dsc }
        | none => task
      updateDue m now task_id task due_date_str priority_str

/-- `TaskManager.toggle_task_status(task_id)`. -/
def toggle_task_status (m : TaskManager) (task_id : Int) :
    Except String Task × TaskManager :=
  match dictGet m.tasks task_id with
  | none => (.error ("Error: No se encontró la tarea con ID " ++ intRepr task_id), m)
  | some task =>
    let task :=
      { task with status :=
          if task.status = TaskStatus.PENDIENTE then TaskStatus.COMPLETADA
          else TaskStatus.PENDIENTE }
    (.ok task, writeBack m task_id task)

/-- `TaskManager.delete_task(task_id)`. -/
def delete_task (m : TaskManager) (task_id : Int) :
    Except String Bool × TaskManager :=
  if (dictGet m.tasks task_id).isSome then
    (.ok true, { m with tasks := dictErase m.tasks task_id })
  else
    (.error ("Error: No se encontró una tarea con ID " ++ intRepr task_id), m)

/-- `TaskManager.get_all_tasks`: `list(self.tasks.values())`, i.e. the
tasks in dict insertion order. -/
def get_all_tasks (m : TaskManager) : List Task :=
  m.tasks.map Prod.snd

/-- Python's `sub in s` on strings (substring containment). -/
def pyIn (sub s : String) : Bool :=
  decide (sub.toList <:+: s.toList)

/-- `TaskManager.filter_tasks`.  Each criterion is applied only when the
argument is truthy in Python: absent (`None`) criteria are skipped, and an
empty `search_term` string is falsy and also skipped. -/
def filter_tasks (m : TaskManager) (status : Option TaskStatus)
    (search_term : Option String) (priority : Option Priority)
    (date_from : Option Int) (date_to : Option Int) : List Task :=
  let filtered := get_all_tasks m
  let filtered := match status with
    | some st => filtered.filter (fun t => decide (t.status = st))
    | none => filtered
  let filtered := match search_term with
    | some s =>
      if s = "" then filtered
      else
        let term := pyToLower s
        filtered.filter (fun t =>
          pyIn term (pyToLower t.title) || pyIn term (pyToLower t.description))
    | none => filtered
  let filtered := match priority with
    | some p => filtered.filter (fun t => decide (t.priority = p))
    | none => filtered
  let filtered := match date_from with
    | some d => filtered.filter (fun t => decide (d ≤ t.due_date))
    | none => filtered
  let filtered := match date_to with
    | some d => filtered.filter (fun t => decide (t.due_date ≤ d))
    | none => filtered
  filtered

/-- Python's stable `sorted(l, key=key, reverse=reverse)`: a stable sort by
the key; with `reverse=True` the comparison is flipped but equal-key
elements still keep their original relative order. -/
def pySorted {α κ : Type} [LinearOrder κ] (l : List α) (key : α → κ)
    (reverse : Bool) : List α :=
  l.mergeSort (fun a b =>
    if reverse then decide (key b ≤ key a) else decide (key a ≤ key b))

/-- `TaskManager.sort_tasks(tasks, sort_by, ascending)`. -/
def sort_tasks (tasks : List Task) (sort_by : String) (ascending : Bool) :
    List Task :=
  let reverse := !ascending
  if sort_by = "due_date" then pySorted tasks (fun t => t.due_date) reverse
  else if sort_by = "priority" then pySorted tasks (fun t => t.priority.value) reverse
  else if sort_by = "title" then pySorted tasks (fun t => pyToLower t.title) reverse
  else tasks

/-! ### Persistence: `to_dict` / `from_dict`, `save_tasks` / `load_tasks`

The backing file's content is modelled as `Option (Except Unit Json)`:
`none` is a missing file, `some (.error ())` a file `json.load` cannot
decode (`JSONDecodeError`), `some (.ok j)` a decodable JSON document of any
shape.  Exceptions that the Python code can raise while interpreting the
document are made explicit in `PyExc`. -/

/-- JSON values. -/
inductive Json where
  | null
  | bool (b : Bool)
  | num (n : Int)
  | str (s : String)
  | arr (elems : List Json)
  | obj (fields : List (String × Json))

/-- The Python exceptions that can arise while interpreting a decoded
document (``JSONDecodeError`` and ``FileNotFoundError`` are represented
structurally by the file-content type instead). -/
inductive PyExc where
  | valueError
  | keyError
  | typeError
  | attributeError
deriving DecidableEq

/-- Python subscript `data[k]` with a string key: key lookup on a dict
(`KeyError` when absent), `TypeError` on any non-dict value. -/
def Json.getItem : Json → String → Except PyExc Json
  | .obj fields, k =>
    match dictGet fields k with
    | some v => .ok v
    | none => .error .keyError
  | _, _ => .error .typeError

/-- `datetime.datetime.isoformat()` on a timeline value: an injective
string rendering, modelled as the decimal rendering of the encoding. -/
def isoformat (d : Int) : String := intRepr d

/-- `datetime.datetime.fromisoformat` applied to a JSON field value:
parses the rendering back (`ValueError` on any string it did not produce,
which is where Python rejects an unparseable timestamp), and raises
`TypeError` on a non-string argument, as the Python function does. -/
def Json.fromisoformatField : Json → Except PyExc Int
  | .str s =>
    match parseIntDec s with
    | some d => .ok d
    | none => .error .valueError
  | _ => .error .typeError

/-- `Priority[x]` for a JSON field value: member-name lookup (`KeyError`
when the name is unrecognized or the value is not a name). -/
def Priority.getItem : Json → Except PyExc Priority
  | .str s =>
    match Priority.fromName s with
    | some p => .ok p
    | none => .error .keyError
  | _ => .error .keyError

/-- `TaskStatus[x]` for a JSON field value. -/
def TaskStatus.getItem : Json → Except PyExc TaskStatus
  | .str s =>
    match TaskStatus.fromName s with
    | some st => .ok st
    | none => .error .keyError
  | _ => .error .keyError

/-- A stored `title`/`description` value.  Python's constructor stores the
raw value without any check; the typed model keeps the string payload and
coerces any other (unrealizable through `save_tasks`) payload to `""`, so
that, like the source, the load does not fail on it. -/
def Json.asPyStr : Json → String
  | .str s => s
  | _ => ""

/-- A stored `id` value: an integer or `null` (for `None`).  Other
payloads, which `save_tasks` never produces, are treated as unset. -/
def Json.asId : Json → Option Int
  | .num n => some n
  | _ => none

/-- A stored `next_id` value.  Python assigns the raw value; the typed
model coerces a non-integer payload (never produced by `save_tasks`) to 0
rather than failing, as the source's assignment does not fail either. -/
def Json.asIntLenient : Json → Int
  | .num n => n
  | _ => 0

/-- `Task.to_dict`. -/
def Task.to_dict (t : Task) : Json :=
  .obj
    [("id", match t.id with | some i => .num i | none => .null),
     ("title", .str t.title),
     ("description", .str t.description),
     ("due_date", .str (isoformat t.due_date)),
     ("priority", .str t.priority.name),
     ("status", .str t.status.name),
     ("created_at", .str (isoformat t.created_at))]

/-- `Task.from_dict(data)`.  Field accesses and conversions run in the
evaluation order of the source: the constructor call's arguments first
(`title`, `description`, parsed `due_date`, `priority`), then the
assignments to `id`, `status`, `created_at`. -/
def Task.from_dict (data : Json) : Except PyExc Task := do
  let titleJ ← data.getItem "title"
  let descJ ← data.getItem "description"
  let dueJ ← data.getItem "due_date"
  let due ← dueJ.fromisoformatField
  let prioJ ← data.getItem "priority"
  let prio ← Priority.getItem prioJ
  let idJ ← data.getItem "id"
  let stJ ← data.getItem "status"
  let st ← TaskStatus.getItem stJ
  let crJ ← data.getItem "created_at"
  let created ← crJ.fromisoformatField
  return { id := idJ.asId, title := titleJ.asPyStr, description := descJ.asPyStr,
           due_date := due, priority := prio, status := st, created_at := created }

/-- `str(t.id)`: `None` prints as `"None"`. -/
def pyStrOfId : Option Int → String
  | some i => intRepr i
  | none => "None"

/-- `int(tid)` on a dict key string: `ValueError` when not an integer
literal. -/
def pyIntOfString (s : String) : Except PyExc Int :=
  match parseIntDec s with
  | some i => .ok i
  | none => .error .valueError

/-- `.items()` on the value stored under `"tasks"`: the field list of a
dict, `AttributeError` on any other value. -/
def Json.itemsOf : Json → Except PyExc (List (String × Json))
  | .obj fields => .ok fields
  | _ => .error .attributeError

/-- The dict comprehension of `save_tasks`, built left to right with dict
insertion semantics (a duplicated `str(t.id)` key would overwrite). -/
def saveEntries : List (Int × Task) → List (String × Json) → List (String × Json)
  | [], acc => acc
  | (_, t) :: rest, acc => saveEntries rest (dictInsert acc (pyStrOfId t.id) t.to_dict)

/-- `TaskManager.save_tasks`: the JSON document written to the data file. -/
def save_tasks (tasks : List (Int × Task)) (next_id : Int) : Json :=
  .obj [("tasks", .obj (saveEntries tasks [])), ("next_id", .num next_id)]

/-- The dict comprehension of `load_tasks`, built left to right with dict
insertion semantics; for each item the key conversion `int(tid)` runs
before `Task.from_dict`. -/
def loadEntries : List (String × Json) → List (Int × Task) → Except PyExc (List (Int × Task))
  | [], acc => .ok acc
  | (tid, td) :: rest, acc => do
    let k ← pyIntOfString tid
    let t ← Task.from_dict td
    loadEntries rest (dictInsert acc k t)

/-- The body of the `try:` block of `load_tasks` on a decoded document. -/
def loadBody (data : Json) : Except PyExc (List (Int × Task) × Int) := do
  let tasksJ ← data.getItem "tasks"
  let items ← tasksJ.itemsOf
  let tasks ← loadEntries items []
  let nidJ ← data.getItem "next_id"
  return (tasks, nidJ.asIntLenient)

/-- `TaskManager.load_tasks`: a missing file or one `json.load` cannot
decode resets to `([], 1)`; a `KeyError` from the body is caught by the
`except (json.JSONDecodeError, KeyError, FileNotFoundError)` clause and
also resets; every other exception of the body propagates to the caller. -/
def load_tasks (file : Option (Except Unit Json)) :
    Except PyExc (List (Int × Task) × Int) :=
  match file with
  | none => .ok ([], 1)
  | some (.error _) => .ok ([], 1)
  | some (.ok data) =>
    match loadBody data with
    | .ok r => .ok r
    | .error .keyError => .ok ([], 1)
    | .error e => .error e

/-! ### Sequences of mutating calls -/

/-- One mutating call on the manager, with the `datetime.now()` value the
call observes. -/
inductive Op where
  | add (now : Int) (title description due_date_str priority_str : String)
  | update (now : Int) (task_id : Int)
      (title description due_date_str priority_str : Option String)
  | toggle (task_id : Int)
  | delete (task_id : Int)

/-- The state after one call (its result discarded). -/
def applyOp (m : TaskManager) : Op → TaskManager
  | .add now t d ds ps => (add_task m now t d ds ps).2
  | .update now i t d ds ps => (update_task m now i t d ds ps).2
  | .toggle i => (toggle_task_status m i).2
  | .delete i => (delete_task m i).2

/-- The state reached from a fresh manager by a sequence of calls. -/
def runOps (ops : List Op) : TaskManager :=
  ops.foldl applyOp initialManager

/-- The data-structure invariant of the manager: the counter is at least 1,
keys are strictly increasing in storage order (hence distinct, and
`values()` iterates in creation order), and every entry's task carries its
key as `id`, a positive integer below the counter. -/
def Inv (m : TaskManager) : Prop :=
  1 ≤ m.next_id ∧
  (m.tasks.map Prod.fst).Pairwise (· < ·) ∧
  ∀ p ∈ m.tasks, p.2.id = some p.1 ∧ 1 ≤ p.1 ∧ p.1 < m.next_id

/-! ### Dictionary lemmas -/

theorem dictGet_dictInsert_ne {α β : Type} [DecidableEq α]
    (l : List (α × β)) (k k' : α) (v : β) (h : k' ≠ k) :
    dictGet (dictInsert l k v) k' = dictGet l k' := by
  have hk : ¬ (k = k') := fun h' => h h'.symm
  induction l with
  | nil => simp [dictInsert, dictGet, hk]
  | cons p rest ih =>
    obtain ⟨a, b⟩ := p
    by_cases hak : a = k
    · subst hak
      simp [dictInsert, dictGet, hk]
    · simp only [dictInsert, if_neg hak, dictGet]
      by_cases hak' : a = k'
      · simp [hak']
      · simp [hak', ih]

theorem map_fst_dictInsert_of_present {α β : Type} [DecidableEq α]
    (l : List (α × β)) (k : α) (v v0 : β) (h : dictGet l k = some v0) :
    (dictInsert l k v).map Prod.fst = l.map Prod.fst := by
  induction l with
  | nil => simp [dictGet] at h
  | cons p rest ih =>
    obtain ⟨a, b⟩ := p
    by_cases hak : a = k
    · subst hak
      simp [dictInsert]
    · simp only [dictGet, if_neg hak] at h
      simp [dictInsert, hak, ih h]

theorem dictInsert_of_absent {α β : Type} [DecidableEq α]
    (l : List (α × β)) (k : α) (v : β) (h : dictGet l k = none) :
    dictInsert l k v = l ++ [(k, v)] := by
  induction l with
  | nil => simp [dictInsert]
  | cons p rest ih =>
    obtain ⟨a, b⟩ := p
    by_cases hak : a = k
    · simp [dictGet, hak] at h
    · simp only [dictGet, if_neg hak] at h
      simp [dictInsert, hak, ih h]

theorem mem_dictInsert {α β : Type} [DecidableEq α]
    (l : List (α × β)) (k : α) (v : β) (p : α × β)
    (h : p ∈ dictInsert l k v) : p = (k, v) ∨ p ∈ l := by
  induction l with
  | nil => simpa [dictInsert] using h
  | cons q rest ih =>
    obtain ⟨a, b⟩ := q
    by_cases hak : a = k
    · subst hak
      simp only [dictInsert, if_pos rfl] at h
      rcases List.mem_cons.mp h with h' | h'
      · exact .inl h'
      · exact .inr (List.mem_cons_of_mem _ h')
    · simp only [dictInsert, if_neg hak] at h
      rcases List.mem_cons.mp h with h' | h'
      · exact .inr (h' ▸ List.mem_cons_self _ _)
      · rcases ih h' with h'' | h''
        · exact .inl h''
        · exact .inr (List.mem_cons_of_mem _ h'')

theorem dictGet_mem {α β : Type} [DecidableEq α]
    (l : List (α × β)) (k : α) (v : β) (h : dictGet l k = some v) :
    (k, v) ∈ l := by
  induction l with
  | nil => simp [dictGet] at h
  | cons p rest ih =>
    obtain ⟨a, b⟩ := p
    by_cases hak : a = k
    · subst hak
      have hb : b = v := by simpa [dictGet] using h
      subst hb
      exact List.mem_cons_self _ _
    · simp only [dictGet, if_neg hak] at h
      exact List.mem_cons_of_mem _ (ih h)

theorem dictGet_eq_none_of_forall {α β : Type} [DecidableEq α]
    (l : List (α × β)) (k : α) (h : ∀ p ∈ l, p.1 ≠ k) :
    dictGet l k = none := by
  induction l with
  | nil => rfl
  | cons p rest ih =>
    obtain ⟨a, b⟩ := p
    have ha : a ≠ k := h (a, b) (List.mem_cons_self _ _)
    simp only [dictGet, if_neg ha]
    exact ih fun q hq => h q (List.mem_cons_of_mem _ hq)

theorem dictGet_dictErase_ne {α β : Type} [DecidableEq α]
    (l : List (α × β)) (k k' : α) (h : k' ≠ k) :
    dictGet (dictErase l k) k' = dictGet l k' := by
  induction l with
  | nil => rfl
  | cons p rest ih =>
    obtain ⟨a, b⟩ := p
    by_cases hak : a = k
    · subst hak
      have hk : ¬ (a = k') := fun h' => h h'.symm
      simp only [dictErase, List.filter_cons] at ih ⊢
      rw [if_neg (by simp)]
      simp only [dictGet, if_neg hk]
      exact ih
    · simp only [dictErase, List.filter_cons] at ih ⊢
      rw [if_pos (by simpa using hak)]
      simp only [dictGet]
      by_cases hk' : a = k'
      · simp [hk']
      · simp only [if_neg hk']
        exact ih

/-! ### State characterization of `update_task` and invariant preservation -/

theorem updateFinish_snd (m : TaskManager) (i : Int) (task : Task) (ps : Option String) :
    ∃ t1, (updateFinish m i task ps).2 = writeBack m i t1 ∧ t1.id = task.id := by
  cases ps with
  | none => exact ⟨task, rfl, rfl⟩
  | some p =>
    cases h : Priority.fromName (pyToUpper p) with
    | none => exact ⟨task, by simp [updateFinish, h], rfl⟩
    | some prio => exact ⟨{ task with priority := prio }, by simp [updateFinish, h], rfl⟩

theorem updateDue_snd (m : TaskManager) (now : Int) (i : Int) (task : Task)
    (ds ps : Option String) :
    ∃ t1, (updateDue m now i task ds ps).2 = writeBack m i t1 ∧ t1.id = task.id := by
  cases ds with
  | none => simpa [updateDue] using updateFinish_snd m i task ps
  | some s =>
    cases h : strptime s with
    | none => exact ⟨task, by simp [updateDue, h], rfl⟩
    | some d =>
      by_cases hlt : d < now
      · exact ⟨{ task with due_date := d }, by simp [updateDue, h, hlt], rfl⟩
      · obtain ⟨t1, h1, h2⟩ := updateFinish_snd m i { task with due_date := d } ps
        exact ⟨t1, by simp only [updateDue, h, if_neg hlt]; exact h1, by simpa using h2⟩

theorem update_task_snd (m : TaskManager) (now : Int) (i : Int)
    (t? d? ds? ps? : Option String) :
    (update_task m now i t? d? ds? ps?).2 = m ∨
    ∃ t0 t1, dictGet m.tasks i = some t0 ∧ t1.id = t0.id ∧
      (update_task m now i t? d? ds? ps?).2 = writeBack m i t1 := by
  cases hg : dictGet m.tasks i with
  | none => left; simp [update_task, hg]
  | some task =>
    cases t? with
    | some t =>
      by_cases hv : t = "" ∨ t.length > MAX_TITLE_LENGTH
      · left; simp [update_task, hg, hv]
      · right
        cases d? with
        | none =>
          obtain ⟨t1, h1, h2⟩ := updateDue_snd m now i { task with title := t } ds? ps?
          exact ⟨task, t1, rfl, by simpa using h2,
            by simp only [update_task, hg, if_neg hv]; exact h1⟩
        | some dsc =>
          obtain ⟨t1, h1, h2⟩ :=
            updateDue_snd m now i { task with title := t, description := dsc } ds? ps?
          exact ⟨task, t1, rfl, by simpa using h2,
            by simp only [update_task, hg, if_neg hv]; exact h1⟩
    | none =>
      right
      cases d? with
      | none =>
        obtain ⟨t1, h1, h2⟩ := updateDue_snd m now i task ds? ps?
        exact ⟨task, t1, rfl, h2, by simp only [update_task, hg]; exact h1⟩
      | some dsc =>
        obtain ⟨t1, h1, h2⟩ := updateDue_snd m now i { task with description := dsc } ds? ps?
        exact ⟨task, t1, rfl, by simpa using h2, by simp only [update_task, hg]; exact h1⟩

theorem inv_writeBack (m : TaskManager) (i : Int) (t0 t1 : Task)
    (hget : dictGet m.tasks i = some t0) (hid : t1.id = t0.id) (h : Inv m) :
    Inv (writeBack m i t1) := by
  obtain ⟨h1, h2, h3⟩ := h
  have hmem := dictGet_mem _ _ _ hget
  obtain ⟨hid0, hpos, hlt⟩ := h3 _ hmem
  refine ⟨h1, ?_, ?_⟩
  · simpa [writeBack, map_fst_dictInsert_of_present m.tasks i t1 t0 hget] using h2
  · intro p hp
    rcases mem_dictInsert _ _ _ _ hp with rfl | hp'
    · refine ⟨?_, by simpa using hpos, by simpa [writeBack] using hlt⟩
      show t1.id = some i
      rw [hid]
      simpa using hid0
    · exact h3 p hp'

theorem inv_add (m : TaskManager) (now : Int) (t d ds ps : String) (h : Inv m) :
    Inv (add_task m now t d ds ps).2 ∧
      m.next_id ≤ (add_task m now t d ds ps).2.next_id := by
  obtain ⟨h1, h2, h3⟩ := h
  by_cases hv : t = "" ∨ t.length > MAX_TITLE_LENGTH
  · simp only [add_task, if_pos hv]
    exact ⟨⟨h1, h2, h3⟩, le_refl _⟩
  · cases hdt : strptime ds with
    | none =>
      simp only [add_task, if_neg hv, hdt]
      exact ⟨⟨h1, h2, h3⟩, le_refl _⟩
    | some dd =>
      cases hp : Priority.fromName (pyToUpper ps) with
      | none =>
        simp only [add_task, if_neg hv, hdt, hp]
        exact ⟨⟨h1, h2, h3⟩, le_refl _⟩
      | some prio =>
        have habs : dictGet m.tasks m.next_id = none :=
          dictGet_eq_none_of_forall _ _ (fun p hp' => ne_of_lt (h3 p hp').2.2)
        simp only [add_task, if_neg hv, hdt, hp, dictInsert_of_absent _ _ _ habs]
        constructor
        · refine ⟨show (1 : Int) ≤ m.next_id + 1 by omega, ?_, ?_⟩
          · rw [List.map_append]
            refine List.pairwise_append.mpr ⟨h2, List.pairwise_singleton _ _, ?_⟩
            intro a ha b hb
            obtain ⟨q, hq, rfl⟩ := List.mem_map.mp ha
            simp only [List.map_cons, List.map_nil, List.mem_singleton] at hb
            subst hb
            exact (h3 q hq).2.2
          · intro p hp'
            rcases List.mem_append.mp hp' with hp'' | hp''
            · obtain ⟨a, b, c⟩ := h3 p hp''
              exact ⟨a, b, show p.1 < m.next_id + 1 by omega⟩
            · simp only [List.mem_singleton] at hp''
              subst hp''
              exact ⟨rfl, h1, show m.next_id < m.next_id + 1 by omega⟩
        · show m.next_id ≤ m.next_id + 1
          omega

theorem inv_toggle (m : TaskManager) (i : Int) (h : Inv m) :
    Inv (toggle_task_status m i).2 ∧
      m.next_id ≤ (toggle_task_status m i).2.next_id := by
  cases hg : dictGet m.tasks i with
  | none =>
    simp only [toggle_task_status, hg]
    exact ⟨h, le_refl _⟩
  | some task =>
    simp only [toggle_task_status, hg]
    exact ⟨inv_writeBack m i task _ hg rfl h, le_refl _⟩

theorem inv_delete (m : TaskManager) (i : Int) (h : Inv m) :
    Inv (delete_task m i).2 ∧ m.next_id ≤ (delete_task m i).2.next_id := by
  obtain ⟨h1, h2, h3⟩ := h
  by_cases hs : (dictGet m.tasks i).isSome
  · simp only [delete_task, if_pos hs]
    refine ⟨⟨h1, ?_, ?_⟩, le_refl _⟩
    · exact h2.sublist ((List.filter_sublist _).map _)
    · intro p hp
      exact h3 p (List.mem_of_mem_filter hp)
  · simp only [delete_task, if_neg hs]
    exact ⟨⟨h1, h2, h3⟩, le_refl _⟩

theorem inv_update (m : TaskManager) (now : Int) (i : Int)
    (t? d? ds? ps? : Option String) (h : Inv m) :
    Inv (update_task m now i t? d? ds? ps?).2 ∧
      m.next_id ≤ (update_task m now i t? d? ds? ps?).2.next_id := by
  rcases update_task_snd m now i t? d? ds? ps? with heq | ⟨t0, t1, hget, hid, heq⟩
  · rw [heq]; exact ⟨h, le_refl _⟩
  · rw [heq]; exact ⟨inv_writeBack m i t0 t1 hget hid h, le_refl _⟩

theorem inv_applyOp (m : TaskManager) (op : Op) (h : Inv m) :
    Inv (applyOp m op) ∧ m.next_id ≤ (applyOp m op).next_id := by
  cases op with
  | add now t d ds ps => exact inv_add m now t d ds ps h
  | update now i t d ds ps => exact inv_update m now i t d ds ps h
  | toggle i => exact inv_toggle m i h
  | delete i => exact inv_delete m i h

theorem inv_initial : Inv initialManager :=
  ⟨le_refl _, List.Pairwise.nil, fun p hp => absurd hp (List.not_mem_nil p)⟩

theorem inv_runOps (ops : List Op) : Inv (runOps ops) := by
  suffices h : ∀ m, Inv m → Inv (ops.foldl applyOp m) from h _ inv_initial
  induction ops with
  | nil => exact fun m hm => hm
  | cons op rest ih => exact fun m hm => ih _ (inv_applyOp m op hm).1

/-! ### Concrete fixtures used by witnesses and counterexamples -/

/-- A concrete stored task used by the concrete theorems below. -/
def tFix : Task :=
  { id := some 1, title := "Informe", description := "detalle",
    due_date := dtEncode 2031 5 20 9 30, priority := .MEDIA,
    status := .PENDIENTE, created_at := dtEncode 2025 1 1 0 0 }

/-- A concrete one-task manager state. -/
def mFix : TaskManager := { tasks := [(1, tFix)], next_id := 2 }

/-- A concrete `datetime.now()`: 2025-06-01 12:00. -/
def nowFix : Int := dtEncode 2025 6 1 12 0

/-! ### C1 — validation errors and the state -/

/-- C1 counterexample: `update_task` with a past due date returns the
past-date `ValidationError` message, yet the targeted task's `due_date` has
already been overwritten by the first (unguarded) due-date block, so the
state is *not* as it was before the call. -/
theorem claim_c1_counterexample :
    (update_task mFix nowFix 1 none none (some "2000-01-01 10:00") none).1 =
      .error "Error: La fecha de vencimiento no puede ser en el pasado" ∧
    dictGet (update_task mFix nowFix 1 none none (some "2000-01-01 10:00") none).2.tasks 1 =
      some { tFix with due_date := dtEncode 2000 1 1 10 0 } ∧
    ({ tFix with due_date := dtEncode 2000 1 1 10 0 } : Task) ≠ tFix := by
  refine ⟨rfl, rfl, by decide⟩

/-- C1 (amended): when `add_task` returns a validation error the whole
state is unchanged; when `update_task` returns an error the key set and the
`next_id` counter are unchanged (but fields of the targeted task written by
blocks that ran before the failing check may already have been mutated, as
the counterexample shows). -/
theorem claim_c1_amended (m : TaskManager) (now : Int) (x : Int)
    (t d ds ps : String) (t? d? ds? ps? : Option String) :
    (∀ e, (add_task m now t d ds ps).1 = .error e → (add_task m now t d ds ps).2 = m) ∧
    (∀ e, (update_task m now x t? d? ds? ps?).1 = .error e →
      (update_task m now x t? d? ds? ps?).2.next_id = m.next_id ∧
      (update_task m now x t? d? ds? ps?).2.tasks.map Prod.fst = m.tasks.map Prod.fst) := by
  constructor
  · intro e he
    by_cases hv : t = "" ∨ t.length > MAX_TITLE_LENGTH
    · simp [add_task, hv]
    · cases hdt : strptime ds with
      | none => simp [add_task, hv, hdt]
      | some dd =>
        cases hp : Priority.fromName (pyToUpper ps) with
        | none => simp [add_task, hv, hdt, hp]
        | some prio => simp [add_task, hv, hdt, hp] at he
  · intro e _
    rcases update_task_snd m now x t? d? ds? ps? with heq | ⟨t0, t1, hget, _, heq⟩
    · rw [heq]; exact ⟨rfl, rfl⟩
    · rw [heq]
      exact ⟨rfl, map_fst_dictInsert_of_present m.tasks x t1 t0 hget⟩

/-- Witness for `claim_c1_amended` at concrete inputs: an `add_task` call
failing title validation leaves the state equal, and the past-due-date
`update_task` error keeps the key set and the counter. -/
theorem claim_c1_witness :
    (add_task mFix nowFix "" "" "2099-01-01 10:00" "BAJA").2 = mFix ∧
    (update_task mFix nowFix 1 none none (some "2000-01-01 10:00") none).2.next_id = mFix.next_id ∧
    (update_task mFix nowFix 1 none none (some "2000-01-01 10:00") none).2.tasks.map Prod.fst =
      mFix.tasks.map Prod.fst := by
  have h := claim_c1_amended mFix nowFix 1 "" "" "2099-01-01 10:00" "BAJA"
    none none (some "2000-01-01 10:00") none
  exact ⟨h.1 "Error: El título debe tener entre 1 y 50 caracteres." rfl,
    (h.2 "Error: La fecha de vencimiento no puede ser en el pasado" rfl).1,
    (h.2 "Error: La fecha de vencimiento no puede ser en el pasado" rfl).2⟩

/-! ### C9 — id/key invariant and counter monotonicity -/

/-- C9: from a fresh manager, after any sequence of `add_task`,
`update_task`, `toggle_task_status` and `delete_task` calls, every stored
task carries its mapping key as `id`, all keys are distinct positive
integers strictly below `next_id`, and one further call never decreases
`next_id`. -/
theorem claim_c9_invariant (ops : List Op) :
    (∀ p ∈ (runOps ops).tasks, p.2.id = some p.1 ∧ 1 ≤ p.1 ∧ p.1 < (runOps ops).next_id) ∧
    ((runOps ops).tasks.map Prod.fst).Nodup ∧
    1 ≤ (runOps ops).next_id ∧
    (∀ op : Op, (runOps ops).next_id ≤ (applyOp (runOps ops) op).next_id) := by
  obtain ⟨h1, h2, h3⟩ := inv_runOps ops
  exact ⟨h3, h2.imp ne_of_lt, h1, fun op => (inv_applyOp _ op ⟨h1, h2, h3⟩).2⟩

/-- Witness for `claim_c9_invariant` after one successful `add_task`. -/
theorem claim_c9_witness :
    ((1 : Int),
      ({ id := some 1, title := "Tarea", description := "", due_date := dtEncode 2099 1 1 10 0,
         priority := .ALTA, status := .PENDIENTE, created_at := nowFix } : Task)).2.id =
        some ((1 : Int),
          ({ id := some 1, title := "Tarea", description := "", due_date := dtEncode 2099 1 1 10 0,
             priority := .ALTA, status := .PENDIENTE, created_at := nowFix } : Task)).1 ∧
    (1 : Int) ≤ (runOps [Op.add nowFix "Tarea" "" "2099-01-01 10:00" "ALTA"]).next_id ∧
    (runOps [Op.add nowFix "Tarea" "" "2099-01-01 10:00" "ALTA"]).next_id ≤
      (applyOp (runOps [Op.add nowFix "Tarea" "" "2099-01-01 10:00" "ALTA"]) (Op.toggle 1)).next_id := by
  have h := claim_c9_invariant [Op.add nowFix "Tarea" "" "2099-01-01 10:00" "ALTA"]
  refine ⟨?_, h.2.2.1, h.2.2.2 (Op.toggle 1)⟩
  have hl : (runOps [Op.add nowFix "Tarea" "" "2099-01-01 10:00" "ALTA"]).tasks =
      [(1, { id := some 1, title := "Tarea", description := "", due_date := dtEncode 2099 1 1 10 0,
             priority := .ALTA, status := .PENDIENTE, created_at := nowFix })] := rfl
  exact (h.1 _ (hl ▸ List.mem_cons_self _ _)).1

/-! ### C10 — frame property of targeted operations -/

/-- C10: `update_task`, `toggle_task_status` and `delete_task` targeting id
`x` leave every task stored under any other id unchanged, whether the call
succeeds or fails. -/
theorem claim_c10_frame (m : TaskManager) (now : Int) (x k : Int)
    (t? d? ds? ps? : Option String) (h : k ≠ x) :
    dictGet ((update_task m now x t? d? ds? ps?).2).tasks k = dictGet m.tasks k ∧
    dictGet ((toggle_task_status m x).2).tasks k = dictGet m.tasks k ∧
    dictGet ((delete_task m x).2).tasks k = dictGet m.tasks k := by
  refine ⟨?_, ?_, ?_⟩
  · rcases update_task_snd m now x t? d? ds? ps? with heq | ⟨t0, t1, _, _, heq⟩
    · rw [heq]
    · rw [heq]; exact dictGet_dictInsert_ne _ _ _ _ h
  · cases hg : dictGet m.tasks x with
    | none => simp [toggle_task_status, hg]
    | some task =>
      simp only [toggle_task_status, hg]
      exact dictGet_dictInsert_ne _ _ _ _ h
  · by_cases hs : (dictGet m.tasks x).isSome
    · simp only [delete_task, if_pos hs]
      exact dictGet_dictErase_ne _ _ _ h
    · simp [delete_task, hs]

/-- Witness for `claim_c10_frame`: operations targeting id 5 do not touch
the task stored under id 1. -/
theorem claim_c10_witness :
    dictGet ((update_task mFix nowFix 5 (some "Nuevo") none none none).2).tasks 1 =
      dictGet mFix.tasks 1 ∧
    dictGet ((toggle_task_status mFix 5).2).tasks 1 = dictGet mFix.tasks 1 ∧
    dictGet ((delete_task mFix 5).2).tasks 1 = dictGet mFix.tasks 1 :=
  claim_c10_frame mFix nowFix 5 1 (some "Nuevo") none none none (by decide)

/-! ### C2 — the due-date window -/

theorem dictGet_dictInsert_self {α β : Type} [DecidableEq α]
    (l : List (α × β)) (k : α) (v : β) :
    dictGet (dictInsert l k v) k = some v := by
  induction l with
  | nil => simp [dictInsert, dictGet]
  | cons p rest ih =>
    obtain ⟨a, b⟩ := p
    by_cases hak : a = k
    · simp [dictInsert, hak, dictGet]
    · simp [dictInsert, hak, dictGet, ih]

/-- C2 counterexample: `add_task` succeeds with a due date a quarter of a
century in the past — creation applies no window check at all, refuting
"the operation succeeds only if the parsed due date lies in
[now, now + 2 years]". -/
theorem claim_c2_counterexample :
    (add_task mFix nowFix "Vieja" "" "2000-01-01 10:00" "ALTA").1 =
      .ok { id := some 2, title := "Vieja", description := "",
            due_date := dtEncode 2000 1 1 10 0, priority := .ALTA,
            status := .PENDIENTE, created_at := nowFix } ∧
    dtEncode 2000 1 1 10 0 < nowFix := by
  exact ⟨rfl, by decide⟩

/-- C2 (amended): `add_task` performs no due-date window validation (any
parseable date is accepted, however far in the past or future); only
`update_task` with a supplied due-date string checks the lower bound,
rejecting a parsed date strictly before `now`, and neither operation
enforces the two-year upper bound. -/
theorem claim_c2_amended (m : TaskManager) (now : Int) (x : Int)
    (t d ds ps s : String) (dt dtu : Int) (task : Task) (prio : Priority) :
    (t ≠ "" → t.length ≤ MAX_TITLE_LENGTH → strptime ds = some dt →
      Priority.fromName (pyToUpper ps) = some prio →
      (add_task m now t d ds ps).1 =
        .ok { id := some m.next_id, title := t, description := d, due_date := dt,
              priority := prio, status := .PENDIENTE, created_at := now }) ∧
    (dictGet m.tasks x = some task → strptime s = some dtu → dtu < now →
      update_task m now x none none (some s) none =
        (.error "Error: La fecha de vencimiento no puede ser en el pasado",
         writeBack m x { task with due_date := dtu })) ∧
    (dictGet m.tasks x = some task → strptime s = some dtu → ¬ dtu < now →
      (update_task m now x none none (some s) none).1 =
        .ok { task with due_date := dtu }) := by
  refine ⟨?_, ?_, ?_⟩
  · intro ht hlen hdt hp
    have hv : ¬ (t = "" ∨ t.length > MAX_TITLE_LENGTH) := by
      push_neg
      exact ⟨ht, by omega⟩
    simp [add_task, hv, hdt, hp]
  · intro hget hs hlt
    simp [update_task, hget, updateDue, hs, hlt]
  · intro hget hs hlt
    simp [update_task, hget, updateDue, hs, hlt, updateFinish]

/-- Witness for `claim_c2_amended`: a concrete add with a far-future date
succeeds, a concrete past-date update errors after mutating, and a concrete
future-date update succeeds — no two-year bound anywhere. -/
theorem claim_c2_witness :
    (add_task mFix nowFix "Plan" "" "2090-01-01 10:00" "baja").1 =
      .ok { id := some 2, title := "Plan", description := "",
            due_date := dtEncode 2090 1 1 10 0, priority := .BAJA,
            status := .PENDIENTE, created_at := nowFix } ∧
    update_task mFix nowFix 1 none none (some "2020-02-02 08:00") none =
      (.error "Error: La fecha de vencimiento no puede ser en el pasado",
       writeBack mFix 1 { tFix with due_date := dtEncode 2020 2 2 8 0 }) ∧
    (update_task mFix nowFix 1 none none (some "2090-01-01 10:00") none).1 =
      .ok { tFix with due_date := dtEncode 2090 1 1 10 0 } := by
  have h := claim_c2_amended mFix nowFix 1 "Plan" "" "2090-01-01 10:00" "baja"
    "2020-02-02 08:00" (dtEncode 2090 1 1 10 0) (dtEncode 2020 2 2 8 0) tFix Priority.BAJA
  have h2 := claim_c2_amended mFix nowFix 1 "Plan" "" "2090-01-01 10:00" "baja"
    "2090-01-01 10:00" (dtEncode 2090 1 1 10 0) (dtEncode 2090 1 1 10 0) tFix Priority.BAJA
  exact ⟨h.1 (by decide) (by decide) rfl rfl,
    h.2.1 rfl rfl (by decide),
    h2.2.2 rfl rfl (by decide)⟩

/-! ### C3 — title validation and storage -/

/-- C3 counterexample: a whitespace-only title (one space) is accepted by
`add_task` and stored verbatim, refuting "a whitespace-only title fails"
and "the stored task's title equals the trimmed input". -/
theorem claim_c3_counterexample :
    (add_task mFix nowFix " " "" "2099-01-01 10:00" "ALTA").1 =
      .ok { id := some 2, title := " ", description := "",
            due_date := dtEncode 2099 1 1 10 0, priority := .ALTA,
            status := .PENDIENTE, created_at := nowFix } := rfl

/-- C3 (amended): with a parseable date and a valid priority, `add_task`
accepts the title exactly when its raw, untrimmed length is between 1 and
50 characters, and on success the stored task (returned and kept under the
new key) carries the input title verbatim — no trimming happens. -/
theorem claim_c3_amended (m : TaskManager) (now : Int)
    (t d ds ps : String) (dt : Int) (prio : Priority)
    (hdt : strptime ds = some dt)
    (hp : Priority.fromName (pyToUpper ps) = some prio) :
    ((add_task m now t d ds ps).1.isOk = true ↔ (t ≠ "" ∧ t.length ≤ 50)) ∧
    (∀ task, (add_task m now t d ds ps).1 = .ok task →
      task.title = t ∧
      dictGet (add_task m now t d ds ps).2.tasks m.next_id = some task) := by
  by_cases hv : t = "" ∨ t.length > MAX_TITLE_LENGTH
  · have hres : (add_task m now t d ds ps).1 =
        .error "Error: El título debe tener entre 1 y 50 caracteres." := by
      simp [add_task, hv]
    constructor
    · rw [hres]
      simp only [Except.isOk, Except.toBool]
      constructor
      · intro h; cases h
      · intro h
        rcases hv with hv | hv
        · exact absurd hv h.1
        · exact absurd h.2 (by simpa [MAX_TITLE_LENGTH] using Nat.not_le_of_lt hv)
    · intro task htask
      rw [hres] at htask
      cases htask
  · have hv2 : ¬ t = "" ∧ ¬ t.length > MAX_TITLE_LENGTH := not_or.mp hv
    have hres : add_task m now t d ds ps =
        (.ok { id := some m.next_id, title := t, description := d, due_date := dt,
               priority := prio, status := .PENDIENTE, created_at := now },
         { tasks := dictInsert m.tasks m.next_id
             { id := some m.next_id, title := t, description := d, due_date := dt,
               priority := prio, status := .PENDIENTE, created_at := now },
           next_id := m.next_id + 1 }) := by
      rw [add_task, if_neg hv, hdt, hp]
    constructor
    · rw [show (add_task m now t d ds ps).1 = _ from congrArg Prod.fst hres]
      simp only [Except.isOk, Except.toBool]
      exact iff_of_true trivial ⟨hv2.1, by
        have := hv2.2
        simp only [MAX_TITLE_LENGTH] at this
        omega⟩
    · intro task htask
      rw [show (add_task m now t d ds ps).1 = _ from congrArg Prod.fst hres] at htask
      rw [Except.ok.injEq] at htask
      subst htask
      refine ⟨rfl, ?_⟩
      rw [show (add_task m now t d ds ps).2 = _ from congrArg Prod.snd hres]
      exact dictGet_dictInsert_self _ _ _

/-- Witness for `claim_c3_amended`: a 50-character title is accepted and
stored verbatim, so `add` followed by `get` returns it. -/
theorem claim_c3_witness :
    ((add_task mFix nowFix
        "tttttttttttttttttttttttttttttttttttttttttttttttttt" "" "2099-01-01 10:00" "ALTA").1.isOk
      = true ↔
      (("tttttttttttttttttttttttttttttttttttttttttttttttttt" : String) ≠ "" ∧
        ("tttttttttttttttttttttttttttttttttttttttttttttttttt" : String).length ≤ 50)) ∧
    ((add_task mFix nowFix
        "tttttttttttttttttttttttttttttttttttttttttttttttttt" "" "2099-01-01 10:00" "ALTA").1 =
      .ok { id := some 2, title := "tttttttttttttttttttttttttttttttttttttttttttttttttt",
            description := "", due_date := dtEncode 2099 1 1 10 0, priority := .ALTA,
            status := .PENDIENTE, created_at := nowFix } →
      ({ id := some 2, title := "tttttttttttttttttttttttttttttttttttttttttttttttttt",
         description := "", due_date := dtEncode 2099 1 1 10 0, priority := .ALTA,
         status := .PENDIENTE, created_at := nowFix } : Task).title =
        "tttttttttttttttttttttttttttttttttttttttttttttttttt") := by
  have h := claim_c3_amended mFix nowFix
    "tttttttttttttttttttttttttttttttttttttttttttttttttt" "" "2099-01-01 10:00" "ALTA"
    (dtEncode 2099 1 1 10 0) Priority.ALTA rfl rfl
  exact ⟨h.1, fun he => (h.2 _ he).1⟩

/-! ### C6 — sorting -/

theorem pySorted_perm {α κ : Type} [LinearOrder κ] (l : List α) (key : α → κ)
    (rev : Bool) : List.Perm (pySorted l key rev) l :=
  List.mergeSort_perm l _

theorem pySorted_pairwise {α κ : Type} [LinearOrder κ] (l : List α) (key : α → κ)
    (rev : Bool) :
    (pySorted l key rev).Pairwise
      (fun a b => if rev then key b ≤ key a else key a ≤ key b) := by
  have h : (pySorted l key rev).Pairwise
      (fun a b => (if rev then decide (key b ≤ key a) else decide (key a ≤ key b)) = true) := by
    apply List.sorted_mergeSort
    · intro a b c hab hbc
      cases rev
      · simp only [Bool.false_eq_true, if_false, decide_eq_true_eq] at hab hbc ⊢
        exact le_trans hab hbc
      · simp only [if_true, decide_eq_true_eq] at hab hbc ⊢
        exact le_trans hbc hab
    · intro a b
      cases rev <;> simp [le_total]
  refine h.imp ?_
  intro a b hab
  cases rev
  · simpa using hab
  · simpa using hab

theorem pySorted_pair_sublist {α κ : Type} [LinearOrder κ] {l : List α} {a b : α}
    (key : α → κ) (rev : Bool) (hk : key a = key b)
    (hs : List.Sublist [a, b] l) :
    List.Sublist [a, b] (pySorted l key rev) := by
  apply List.pair_sublist_mergeSort
  · intro x y z hxy hyz
    cases rev
    · simp only [Bool.false_eq_true, if_false, decide_eq_true_eq] at hxy hyz ⊢
      exact le_trans hxy hyz
    · simp only [if_true, decide_eq_true_eq] at hxy hyz ⊢
      exact le_trans hyz hxy
  · intro x y
    cases rev <;> simp [le_total]
  · cases rev <;> simp [hk]
  · exact hs

theorem sort_tasks_due_date_eq (ts : List Task) (asc : Bool) :
    sort_tasks ts "due_date" asc = pySorted ts (fun t => t.due_date) (!asc) := rfl

theorem sort_tasks_priority_eq (ts : List Task) (asc : Bool) :
    sort_tasks ts "priority" asc = pySorted ts (fun t => t.priority.value) (!asc) := rfl

theorem sort_tasks_title_eq (ts : List Task) (asc : Bool) :
    sort_tasks ts "title" asc = pySorted ts (fun t => pyToLower t.title) (!asc) := rfl

/-- C6: `sort_tasks` sorts by the numeric priority rank `BAJA = 1`,
`MEDIA = 2`, `ALTA = 3` (descending — `ALTA`, `MEDIA`, `BAJA` — when
`ascending = False`), by case-insensitive title order, is a permutation,
keeps equal-key entries in their original relative order on every
recognized key, and returns the input unchanged on an unrecognized
`sort_by`. -/
theorem claim_c6_sort (ts : List Task) (asc : Bool) (sb : String) :
    (Priority.value .BAJA = 1 ∧ Priority.value .MEDIA = 2 ∧ Priority.value .ALTA = 3) ∧
    List.Perm (sort_tasks ts "priority" asc) ts ∧
    List.Perm (sort_tasks ts "title" asc) ts ∧
    (sort_tasks ts "priority" false).Pairwise
      (fun a b => b.priority.value ≤ a.priority.value) ∧
    (sort_tasks ts "priority" true).Pairwise
      (fun a b => a.priority.value ≤ b.priority.value) ∧
    (sort_tasks ts "title" false).Pairwise
      (fun a b => pyToLower b.title ≤ pyToLower a.title) ∧
    (sort_tasks ts "title" true).Pairwise
      (fun a b => pyToLower a.title ≤ pyToLower b.title) ∧
    (∀ a b : Task, a.priority.value = b.priority.value → List.Sublist [a, b] ts →
      List.Sublist [a, b] (sort_tasks ts "priority" asc)) ∧
    (∀ a b : Task, pyToLower a.title = pyToLower b.title → List.Sublist [a, b] ts →
      List.Sublist [a, b] (sort_tasks ts "title" asc)) ∧
    (∀ a b : Task, a.due_date = b.due_date → List.Sublist [a, b] ts →
      List.Sublist [a, b] (sort_tasks ts "due_date" asc)) ∧
    (sb ≠ "due_date" → sb ≠ "priority" → sb ≠ "title" → sort_tasks ts sb asc = ts) := by
  refine ⟨⟨rfl, rfl, rfl⟩, ?_, ?_, ?_, ?_, ?_, ?_, ?_, ?_, ?_, ?_⟩
  · rw [sort_tasks_priority_eq]; exact pySorted_perm _ _ _
  · rw [sort_tasks_title_eq]; exact pySorted_perm _ _ _
  · rw [sort_tasks_priority_eq]
    simpa using pySorted_pairwise ts (fun t => t.priority.value) true
  · rw [sort_tasks_priority_eq]
    simpa using pySorted_pairwise ts (fun t => t.priority.value) false
  · rw [sort_tasks_title_eq]
    simpa using pySorted_pairwise ts (fun t => pyToLower t.title) true
  · rw [sort_tasks_title_eq]
    simpa using pySorted_pairwise ts (fun t => pyToLower t.title) false
  · intro a b hk hs
    rw [sort_tasks_priority_eq]
    exact pySorted_pair_sublist _ _ hk hs
  · intro a b hk hs
    rw [sort_tasks_title_eq]
    exact pySorted_pair_sublist _ _ hk hs
  · intro a b hk hs
    rw [sort_tasks_due_date_eq]
    exact pySorted_pair_sublist _ _ hk hs
  · intro h1 h2 h3
    simp [sort_tasks, h1, h2, h3]

/-- Two equal-priority fixture tasks for the sorting witness. -/
def tA6 : Task :=
  { id := some 1, title := "Alpha", description := "", due_date := 5,
    priority := .MEDIA, status := .PENDIENTE, created_at := 0 }

def tB6 : Task :=
  { id := some 2, title := "Beta", description := "", due_date := 3,
    priority := .MEDIA, status := .PENDIENTE, created_at := 0 }

/-- Witness for `claim_c6_sort`: two equal-priority tasks keep their
original order under the priority sort, and an unrecognized `sort_by`
returns the input unchanged. -/
theorem claim_c6_witness :
    List.Sublist [tA6, tB6] (sort_tasks [tA6, tB6] "priority" false) ∧
    sort_tasks [tA6, tB6] "estado" false = [tA6, tB6] := by
  have h := claim_c6_sort [tA6, tB6] false "estado"
  exact ⟨h.2.2.2.2.2.2.2.1 tA6 tB6 rfl (List.Sublist.refl _),
    h.2.2.2.2.2.2.2.2.2.2 (by decide) (by decide) (by decide)⟩

/-! ### C7 — filtering -/

theorem pyToLower_empty : pyToLower "" = "" := rfl

theorem pyIn_empty (s : String) : pyIn "" s = true := by
  simp only [pyIn, decide_eq_true_eq]
  exact ⟨[], s.toList, by simp⟩

/-- The specification's filter predicate: the AND-combination of the
supplied criteria, `search_term` matching case-insensitively as a substring
of the title or of the description, and the date bounds inclusive. -/
def matchesCriteria (status : Option TaskStatus) (search_term : Option String)
    (priority : Option Priority) (date_from date_to : Option Int) (t : Task) : Bool :=
  (match status with | some st => decide (t.status = st) | none => true) &&
  (match search_term with
   | some s => pyIn (pyToLower s) (pyToLower t.title) ||
               pyIn (pyToLower s) (pyToLower t.description)
   | none => true) &&
  (match priority with | some p => decide (t.priority = p) | none => true) &&
  (match date_from with | some d => decide (d ≤ t.due_date) | none => true) &&
  (match date_to with | some d => decide (t.due_date ≤ d) | none => true)

/-- C7: `filter_tasks` returns exactly the stored tasks (in storage order)
satisfying the conjunction of the supplied criteria. -/
theorem matchesCriteria_empty_search (st? : Option TaskStatus) (p? : Option Priority)
    (f? t? : Option Int) (u : Task) :
    matchesCriteria st? (some "") p? f? t? u = matchesCriteria st? none p? f? t? u := by
  simp [matchesCriteria, pyToLower_empty, pyIn_empty]

theorem filter_tasks_empty_search (m : TaskManager) (st? : Option TaskStatus)
    (p? : Option Priority) (f? t? : Option Int) :
    filter_tasks m st? (some "") p? f? t? = filter_tasks m st? none p? f? t? := rfl

theorem filter_tasks_eq_aux (m : TaskManager) (st? : Option TaskStatus)
    (p? : Option Priority) (f? t? : Option Int) :
    filter_tasks m st? none p? f? t? =
      (get_all_tasks m).filter (matchesCriteria st? none p? f? t?) := by
  rcases st? with _ | st <;> rcases p? with _ | p <;> rcases f? with _ | f <;>
    rcases t? with _ | tt <;>
    · simp only [filter_tasks, List.filter_filter]
      first
      | (congr 1; funext u;
          simp [matchesCriteria, Bool.and_comm, Bool.and_left_comm, Bool.and_assoc])
      | (exact ((List.filter_congr (fun u _ => by
          simp [matchesCriteria])).trans (List.filter_true _)).symm)
      | rfl

theorem filter_tasks_eq_aux_search (m : TaskManager) (st? : Option TaskStatus)
    (s : String) (hs : s ≠ "") (p? : Option Priority) (f? t? : Option Int) :
    filter_tasks m st? (some s) p? f? t? =
      (get_all_tasks m).filter (matchesCriteria st? (some s) p? f? t?) := by
  rcases st? with _ | st <;> rcases p? with _ | p <;> rcases f? with _ | f <;>
    rcases t? with _ | tt <;>
    · simp only [filter_tasks, if_neg hs, List.filter_filter]
      congr 1
      funext u
      simp [matchesCriteria, Bool.and_comm, Bool.and_left_comm, Bool.and_assoc]

/-- C7: `filter_tasks` returns exactly the stored tasks (in storage order)
that satisfy the conjunction of the supplied criteria: status equality,
`search_term` matching case-insensitively as a substring of the title or of
the description, priority equality, and the inclusive `due_date` bounds.
(A supplied empty `search_term` is falsy in Python and skipped, which
coincides with the empty string being a substring of everything.) -/
theorem claim_c7_filter (m : TaskManager) (st? : Option TaskStatus)
    (s? : Option String) (p? : Option Priority) (f? t? : Option Int) :
    filter_tasks m st? s? p? f? t? =
      (get_all_tasks m).filter (matchesCriteria st? s? p? f? t?) := by
  cases s? with
  | none => exact filter_tasks_eq_aux m st? p? f? t?
  | some s =>
    by_cases hs : s = ""
    · subst hs
      rw [filter_tasks_empty_search, filter_tasks_eq_aux]
      exact (List.filter_congr (fun u _ => (matchesCriteria_empty_search st? p? f? t? u))).symm
    · exact filter_tasks_eq_aux_search m st? s hs p? f? t?

/-! ### C8 — `get_all_tasks` ordering -/

/-- Tasks created by the two fixture adds of the C8 theorems: the first
task created has the *later* due date. -/
def t8a : Task :=
  { id := some 1, title := "A", description := "",
    due_date := dtEncode 2099 1 2 10 0, priority := .BAJA,
    status := .PENDIENTE, created_at := 0 }

def t8b : Task :=
  { id := some 2, title := "B", description := "",
    due_date := dtEncode 2099 1 1 10 0, priority := .BAJA,
    status := .PENDIENTE, created_at := 0 }

/-- The manager after adding `t8a` then `t8b`. -/
def m8 : TaskManager :=
  runOps [Op.add 0 "A" "" "2099-01-02 10:00" "BAJA",
          Op.add 0 "B" "" "2099-01-01 10:00" "BAJA"]

/-- C8 counterexample: `get_all_tasks` takes no `order_by`/`direction`
arguments at all and does not fall back to due-date order: after creating a
task with a later due date and then one with an earlier due date, the
returned list is in creation order, which is *not* ascending by
`due_date`. -/
theorem claim_c8_counterexample :
    get_all_tasks m8 = [t8a, t8b] ∧
    ¬ (get_all_tasks m8).Pairwise (fun a b => a.due_date ≤ b.due_date) := by
  refine ⟨rfl, ?_⟩
  intro h
  have heq : get_all_tasks m8 = [t8a, t8b] := rfl
  rw [heq] at h
  have hab := List.rel_of_pairwise_cons h (List.mem_cons_self _ _)
  exact absurd hab (by decide)

/-- C8 (amended): `get_all_tasks` applies no ordering and accepts no
ordering arguments: it returns the stored tasks in storage (insertion)
order, which from a fresh manager is always ascending id (creation)
order. -/
theorem claim_c8_order (ops : List Op) :
    get_all_tasks (runOps ops) = (runOps ops).tasks.map Prod.snd ∧
    (get_all_tasks (runOps ops)).Pairwise
      (fun a b => ∀ i j : Int, a.id = some i → b.id = some j → i < j) := by
  refine ⟨rfl, ?_⟩
  obtain ⟨h1, h2, h3⟩ := inv_runOps ops
  rw [get_all_tasks, List.pairwise_map]
  rw [List.pairwise_map] at h2
  refine h2.imp_of_mem ?_
  intro p q hp hq hlt i j hpi hqj
  have hip := (h3 p hp).1
  have hiq := (h3 q hq).1
  rw [hip] at hpi
  rw [hiq] at hqj
  obtain rfl := Option.some.injEq _ _ ▸ hpi
  obtain rfl := Option.some.injEq _ _ ▸ hqj
  exact hlt

/-- Witness for `claim_c8_order` at the two-add fixture: the returned list
is the stored values, and the two stored ids appear in increasing order. -/
theorem claim_c8_witness :
    get_all_tasks m8 = m8.tasks.map Prod.snd ∧ (1 : Int) < 2 := by
  have h := claim_c8_order [Op.add 0 "A" "" "2099-01-02 10:00" "BAJA",
    Op.add 0 "B" "" "2099-01-01 10:00" "BAJA"]
  refine ⟨h.1, ?_⟩
  have heq : get_all_tasks m8 = [t8a, t8b] := rfl
  have h2 := h.2
  rw [show runOps [Op.add 0 "A" "" "2099-01-02 10:00" "BAJA",
    Op.add 0 "B" "" "2099-01-01 10:00" "BAJA"] = m8 from rfl, heq] at h2
  exact List.rel_of_pairwise_cons h2 (List.mem_cons_self _ _) 1 2 rfl rfl

/-! ### Round-trip lemmas for the decimal rendering -/

theorem natDigitsAux_eq_digits (fuel n : Nat) (h : n ≤ fuel) :
    natDigitsAux fuel n = Nat.digits 10 n := by
  induction fuel generalizing n with
  | zero =>
    have : n = 0 := by omega
    subst this
    simp [natDigitsAux]
  | succ fuel ih =>
    by_cases hn : n = 0
    · subst hn; simp [natDigitsAux]
    · rw [natDigitsAux, if_neg hn, Nat.digits_def' (by omega) (by omega)]
      congr 1
      exact ih _ (by omega)

theorem natDigits_eq_digits (n : Nat) : natDigits n = Nat.digits 10 n :=
  natDigitsAux_eq_digits n n (le_refl n)

theorem digitChar_toNat (d : Nat) (h : d < 10) : (digitChar d).toNat - 48 = d := by
  interval_cases d <;> decide

theorem digitChar_isDigit (d : Nat) (h : d < 10) : (digitChar d).isDigit = true := by
  interval_cases d <;> decide

theorem digitsVal_append_digit (cs : List Char) (c : Char) :
    digitsVal (cs ++ [c]) = digitsVal cs * 10 + (c.toNat - 48) := by
  simp [digitsVal, List.foldl_append]

theorem digitsVal_rev_map (ds : List Nat) (h : ∀ d ∈ ds, d < 10) :
    digitsVal ((ds.reverse).map digitChar) = Nat.ofDigits 10 ds := by
  induction ds with
  | nil => rfl
  | cons d ds ih =>
    rw [List.reverse_cons, List.map_append, List.map_singleton, digitsVal_append_digit]
    rw [ih (fun x hx => h x (List.mem_cons_of_mem _ hx))]
    rw [digitChar_toNat d (h d (List.mem_cons_self _ _))]
    simp [Nat.ofDigits]
    ring

theorem parseNatDigits_natRepr (n : Nat) : parseNatDigits (natRepr n).toList = some n := by
  by_cases h : n = 0
  · subst h; rfl
  · rw [natRepr, if_neg h]
    have hlt : ∀ d ∈ Nat.digits 10 n, d < 10 :=
      fun d hd => Nat.digits_lt_base (by omega) hd
    have hne : Nat.digits 10 n ≠ [] := Nat.digits_ne_nil_iff_ne_zero.mpr h
    have htl : (String.mk (((natDigits n).reverse).map digitChar)).toList =
        ((Nat.digits 10 n).reverse).map digitChar := by
      rw [natDigits_eq_digits]
      rfl
    rw [htl, parseNatDigits]
    have hcond : ((Nat.digits 10 n).reverse).map digitChar ≠ [] ∧
        (((Nat.digits 10 n).reverse).map digitChar).all Char.isDigit = true := by
      constructor
      · simp [hne]
      · rw [List.all_eq_true]
        intro c hc
        obtain ⟨d, hd, rfl⟩ := List.mem_map.mp hc
        exact digitChar_isDigit d (hlt d (List.mem_reverse.mp hd))
    rw [if_pos hcond, digitsVal_rev_map _ hlt, Nat.ofDigits_digits]

theorem parseNatDigits_isSome_conditions (cs : List Char) (n : Nat)
    (h : parseNatDigits cs = some n) : cs ≠ [] ∧ cs.all Char.isDigit = true := by
  by_cases hc : cs ≠ [] ∧ cs.all Char.isDigit = true
  · exact hc
  · rw [parseNatDigits, if_neg hc] at h
    cases h

theorem isDigit_ne_minus (c : Char) (h : c.isDigit = true) : ¬ c = '-' := by
  intro he
  subst he
  simp [Char.isDigit] at h

theorem parseIntDec_intRepr (i : Int) : parseIntDec (intRepr i) = some i := by
  by_cases h : i < 0
  · rw [intRepr, if_pos h]
    have htl : (("-" ++ natRepr i.natAbs) : String).toList =
        '-' :: (natRepr i.natAbs).toList := rfl
    rw [parseIntDec, htl, parseIntDecList, if_pos rfl, parseNatDigits_natRepr]
    show some (-(i.natAbs : Int)) = some i
    rw [Option.some.injEq]
    omega
  · rw [intRepr, if_neg h]
    have hsome := parseNatDigits_natRepr i.toNat
    obtain ⟨hne, hdig⟩ := parseNatDigits_isSome_conditions _ _ hsome
    obtain ⟨c, cs, hcs⟩ := List.exists_cons_of_ne_nil hne
    have hcd : c.isDigit = true := by
      rw [hcs, List.all_cons] at hdig
      exact (Bool.and_eq_true_iff.mp hdig).1
    rw [parseIntDec, hcs, parseIntDecList, if_neg (isDigit_ne_minus c hcd), ← hcs, hsome]
    show some ((i.toNat : Nat) : Int) = some i
    rw [Option.some.injEq]
    omega

theorem intRepr_injective : Function.Injective intRepr := by
  intro a b hab
  have ha := parseIntDec_intRepr a
  rw [hab, parseIntDec_intRepr] at ha
  exact (Option.some.injEq _ _ ▸ ha).symm

/-! ### `from_dict` inverts `to_dict` -/

theorem from_dict_to_dict (t : Task) : Task.from_dict (Task.to_dict t) = .ok t := by
  obtain ⟨tid, ttitle, tdesc, tdue, tprio, tstat, tcr⟩ := t
  cases tprio <;> cases tstat <;> cases tid <;>
    simp [Task.to_dict, Task.from_dict, Json.getItem, dictGet, Json.fromisoformatField,
      isoformat, parseIntDec_intRepr, Priority.getItem, Priority.fromName, Priority.name,
      TaskStatus.getItem, TaskStatus.fromName, TaskStatus.name, Json.asPyStr, Json.asId,
      bind, Except.bind, pure, Except.pure]

/-! ### Round trip of `save_tasks` / `load_tasks` -/

theorem saveEntries_eq (l : List (Int × Task)) (acc : List (String × Json))
    (hid : ∀ p ∈ l, p.2.id = some p.1)
    (hnod : (acc.map Prod.fst ++ l.map (fun p => intRepr p.1)).Nodup) :
    saveEntries l acc = acc ++ l.map (fun p => (intRepr p.1, p.2.to_dict)) := by
  induction l generalizing acc with
  | nil => simp [saveEntries]
  | cons p rest ih =>
    obtain ⟨k, t⟩ := p
    have hidk : t.id = some k := hid (k, t) (List.mem_cons_self _ _)
    have habs : dictGet acc (intRepr k) = none := by
      apply dictGet_eq_none_of_forall
      intro q hq hqk
      have hdisj := (List.nodup_append.mp hnod).2.2
      exact hdisj (List.mem_map_of_mem Prod.fst hq) (by rw [hqk]; simp)
    rw [saveEntries, hidk]
    simp only [pyStrOfId]
    rw [dictInsert_of_absent _ _ _ habs]
    rw [ih (acc ++ [(intRepr k, t.to_dict)]) (fun q hq => hid q (List.mem_cons_of_mem _ hq))]
    · simp
    · rw [List.map_append]
      have : acc.map Prod.fst ++ (((k, t) :: rest).map fun p => intRepr p.1) =
          acc.map Prod.fst ++ [intRepr k] ++ rest.map (fun p => intRepr p.1) := by
        simp
      rw [this] at hnod
      simpa using hnod

theorem loadEntries_eq (l : List (Int × Task)) (acc : List (Int × Task))
    (hnod : (acc.map Prod.fst ++ l.map Prod.fst).Nodup) :
    loadEntries (l.map (fun p => (intRepr p.1, p.2.to_dict))) acc = .ok (acc ++ l) := by
  induction l generalizing acc with
  | nil => simp [loadEntries]
  | cons p rest ih =>
    obtain ⟨k, t⟩ := p
    have habs : dictGet acc k = none := by
      apply dictGet_eq_none_of_forall
      intro q hq hqk
      have hdisj := (List.nodup_append.mp hnod).2.2
      exact hdisj (List.mem_map_of_mem Prod.fst hq) (by rw [hqk]; simp)
    rw [List.map_cons, loadEntries]
    have hk : pyIntOfString (intRepr k) = .ok k := by
      rw [pyIntOfString, parseIntDec_intRepr]
    rw [hk]
    simp only [bind, Except.bind, from_dict_to_dict]
    rw [dictInsert_of_absent _ _ _ habs]
    rw [ih (acc ++ [(k, t)])]
    · simp
    · have : acc.map Prod.fst ++ (((k, t) :: rest).map Prod.fst) =
          acc.map Prod.fst ++ [k] ++ rest.map Prod.fst := by
        simp
      rw [this] at hnod
      simpa using hnod

/-! ### C5 — persistence round trip -/

/-- C5 (amended): for every task mapping in which each stored task's `id`
field equals its key (hence keys, like ids, are distinct), `save_tasks`
followed by `load_tasks` restores the same mapping, entry by entry and in
the same order, and the same `next_id`. -/
theorem claim_c5_roundtrip (tasks : List (Int × Task)) (nid : Int)
    (hid : ∀ p ∈ tasks, p.2.id = some p.1)
    (hnod : (tasks.map Prod.fst).Nodup) :
    load_tasks (some (.ok (save_tasks tasks nid))) = .ok (tasks, nid) := by
  have hsave : save_tasks tasks nid =
      Json.obj [("tasks", Json.obj (tasks.map (fun p => (intRepr p.1, p.2.to_dict)))),
                ("next_id", Json.num nid)] := by
    rw [save_tasks, saveEntries_eq tasks [] hid]
    · simp
    · rw [List.map_nil, List.nil_append]
      have : (tasks.map fun p => intRepr p.1) = (tasks.map Prod.fst).map intRepr := by
        rw [List.map_map]
        rfl
      rw [this]
      exact hnod.map intRepr_injective
  have hbody : loadBody
      (Json.obj [("tasks", Json.obj (tasks.map (fun p => (intRepr p.1, p.2.to_dict)))),
                 ("next_id", Json.num nid)]) = .ok (tasks, nid) := by
    rw [loadBody]
    have hget1 : Json.getItem
        (Json.obj [("tasks", Json.obj (tasks.map (fun p => (intRepr p.1, p.2.to_dict)))),
                   ("next_id", Json.num nid)]) "tasks" =
        .ok (Json.obj (tasks.map (fun p => (intRepr p.1, p.2.to_dict)))) := by
      simp [Json.getItem, dictGet]
    have hget2 : Json.getItem
        (Json.obj [("tasks", Json.obj (tasks.map (fun p => (intRepr p.1, p.2.to_dict)))),
                   ("next_id", Json.num nid)]) "next_id" = .ok (Json.num nid) := by
      simp [Json.getItem, dictGet]
    have hentries := loadEntries_eq tasks [] (by simpa using hnod)
    simp only [hget1, hget2, bind, Except.bind, Json.itemsOf, hentries]
    simp [Json.asIntLenient, pure, Except.pure]
  rw [hsave]
  show (match loadBody _ with
    | .ok r => .ok r
    | .error .keyError => .ok ([], 1)
    | .error e => .error e : Except PyExc (List (Int × Task) × Int)) = .ok (tasks, nid)
  rw [hbody]

/-- A task whose `id` field (2) disagrees with its mapping key (1). -/
def t5bad : Task :=
  { id := some 2, title := "Suelta", description := "", due_date := 9,
    priority := .BAJA, status := .PENDIENTE, created_at := 9 }

/-- C5 counterexample: the claim quantifies over every mapping whose tasks
merely have their `id` field set; `save_tasks` keys the persisted record by
`str(t.id)`, so a task stored under key 1 with `id = 2` comes back under
key 2 — the reloaded mapping differs from the one saved. -/
theorem claim_c5_counterexample :
    load_tasks (some (.ok (save_tasks [((1 : Int), t5bad)] 7))) =
      .ok ([((2 : Int), t5bad)], 7) ∧
    ([((2 : Int), t5bad)] : List (Int × Task)) ≠ [((1 : Int), t5bad)] := by
  refine ⟨rfl, ?_⟩
  intro h
  have := List.head_eq_of_cons_eq h
  have h1 : (2 : Int) = 1 := congrArg Prod.fst this
  omega

/-- Witness for `claim_c5_roundtrip` on a concrete one-task mapping. -/
theorem claim_c5_witness :
    load_tasks (some (.ok (save_tasks [((1 : Int), tFix)] 2))) =
      .ok ([((1 : Int), tFix)], 2) := by
  apply claim_c5_roundtrip
  · intro p hp
    rw [List.mem_singleton] at hp
    subst hp
    rfl
  · simp

/-! ### C4 — resilience of `load_tasks` -/

/-- A persisted record whose timestamp string is unparseable. -/
def recBadTimestamp : Json :=
  .obj [("id", .num 1), ("title", .str "a"), ("description", .str ""),
        ("due_date", .str "sin fecha"), ("priority", .str "ALTA"),
        ("status", .str "PENDIENTE"), ("created_at", .str "0")]

/-- A backing document containing `recBadTimestamp`. -/
def fileBadTimestamp : Json :=
  .obj [("tasks", .obj [("1", recBadTimestamp)]), ("next_id", .num 5)]

/-- A persisted record with an unrecognized priority name. -/
def recBadPriority : Json :=
  .obj [("id", .num 1), ("title", .str "a"), ("description", .str ""),
        ("due_date", .str "0"), ("priority", .str "URGENTE"),
        ("status", .str "PENDIENTE"), ("created_at", .str "0")]

/-- A backing document containing `recBadPriority`. -/
def fileBadPriority : Json :=
  .obj [("tasks", .obj [("1", recBadPriority)]), ("next_id", .num 3)]

/-- C4 counterexample: a well-formed JSON document whose record holds an
unparseable timestamp makes `load_tasks` raise `ValueError` to the caller —
`datetime.fromisoformat`'s `ValueError` is not in the `except` clause of
the source, refuting "load_tasks never raises". -/
theorem claim_c4_counterexample :
    load_tasks (some (.ok fileBadTimestamp)) = .error .valueError := rfl

/-- C4 (amended): `load_tasks` returns an empty mapping and counter 1 on a
missing file, on an undecodable file, and on documents whose interpretation
raises `KeyError` (missing keys, unknown enum names — e.g. the concrete
unknown-priority document); but ill-typed record contents can still escape:
any exception it propagates is a `ValueError`, `TypeError` or
`AttributeError` from inside a record or the `tasks` value. -/
theorem claim_c4_load (file : Option (Except Unit Json)) (e : PyExc) :
    load_tasks none = .ok ([], 1) ∧
    (∀ msg : Unit, load_tasks (some (.error msg)) = .ok ([], 1)) ∧
    (load_tasks file = .error e →
      e = .valueError ∨ e = .typeError ∨ e = .attributeError) ∧
    load_tasks (some (.ok fileBadPriority)) = .ok ([], 1) := by
  refine ⟨rfl, fun msg => rfl, ?_, rfl⟩
  intro hload
  rcases file with _ | f
  · simp [load_tasks] at hload
  · rcases f with u | data
    · simp [load_tasks] at hload
    · rw [load_tasks] at hload
      cases hb : loadBody data with
      | ok r => rw [hb] at hload; simp at hload
      | error e' =>
        rw [hb] at hload
        cases e' <;> cases e <;> simp_all

/-- Witness for `claim_c4_load` at the unparseable-timestamp document: the
escaped exception is indeed among `ValueError`/`TypeError`/
`AttributeError`, and the missing-file reset holds. -/
theorem claim_c4_witness :
    load_tasks none = .ok ([], 1) ∧
    (PyExc.valueError = .valueError ∨ PyExc.valueError = .typeError ∨
      PyExc.valueError = .attributeError) := by
  have h := claim_c4_load (some (.ok fileBadTimestamp)) PyExc.valueError
  exact ⟨h.1, h.2.2.1 rfl⟩

end Gestor
